import Mathlib

/-!
Verification of the APRS beacon sender (src/APRS_Beacon.py).

The embedding below translates the core, protocol-relevant parts of the
program into Lean: the position encoders `decimal_to_aprs_lat` and
`decimal_to_aprs_lon`, the symbol table `SYMBOL_MAP`, the packet builder
`build_packet`, the login-acknowledgement scanner `wait_for_logresp`, and
the retrying sender `send_beacon` of class APRSSender.

Modelling conventions:
- Python floats are idealised as rationals (ℚ); the 2-decimal float
  formatting of an f-string is modelled as rounding to hundredths
  (round-half-up, an idealisation of the binary-float rounding of CPython)
  followed by decimal rendering.
- Decimal rendering of integers (the d and f format conversions) is given
  by an explicit fuel-based digit printer so that the kernel can evaluate it.
- Network effects are modelled by an oracle (`NetEnv` per attempt) saying
  whether each socket operation succeeds and which lines the server sent.
- A raised exception becomes an `Except.error` value.
-/

/-- Decimal digit character: 48 is the code of the zero digit. -/
def digitChar (d : Nat) : Char := Char.ofNat (48 + d)

/-- Decimal digits of a number, most significant first; fuel-based so the
kernel can reduce it.  `natDigitsAux fuel n` is correct when `n < fuel`. -/
def natDigitsAux : Nat → Nat → List Char
  | 0, _ => []
  | fuel + 1, n =>
    if n < 10 then [digitChar n]
    else natDigitsAux fuel (n / 10) ++ [digitChar (n % 10)]

/-- Decimal rendering of a natural number (model of the Python str / %d
conversion on a non-negative integer). -/
def natStr (n : Nat) : String := String.mk (natDigitsAux (n + 1) n)

/-- Left zero-padding of a string to width `w` (model of the Python 0-fill
in format specifications such as 02d, 03d and 05.2f). -/
def padLeftZeros (w : Nat) (s : String) : String :=
  if w ≤ s.length then s
  else String.mk (List.replicate (w - s.length) '0') ++ s

/-- Rendering of a non-negative number of hundredths as a fixed-point
decimal with 2 fractional digits, zero-filled to total width 5. -/
def renderCenti (n : Nat) : String :=
  padLeftZeros 5 (natStr (n / 100) ++ "." ++ padLeftZeros 2 (natStr (n % 100)))

/-- Model of the f-string conversion 05.2f applied to a non-negative
rational: round to hundredths, then render with 2 fractional digits,
zero-filled to width 5. -/
def fmt_05_2f (x : ℚ) : String := renderCenti (round (x * 100)).toNat

/-- Source: `decimal_to_aprs_lat` (src/APRS_Beacon.py, lines 42-47).
Degrees are the integer part of the absolute value, minutes the fractional
part times 60; output is 02d-padded degrees, 05.2f minutes, and N for
non-negative input, S otherwise. -/
def decimal_to_aprs_lat (lat : ℚ) : String :=
  let direction := if lat ≥ 0 then "N" else "S"
  let lat := |lat|
  let deg : ℕ := ⌊lat⌋.toNat
  let min_ : ℚ := (lat - (deg : ℚ)) * 60
  padLeftZeros 2 (natStr deg) ++ fmt_05_2f min_ ++ direction

/-- Source: `decimal_to_aprs_lon` (src/APRS_Beacon.py, lines 49-54).
Same as the latitude encoder but with 03d-padded degrees and E / W. -/
def decimal_to_aprs_lon (lon : ℚ) : String :=
  let direction := if lon ≥ 0 then "E" else "W"
  let lon := |lon|
  let deg : ℕ := ⌊lon⌋.toNat
  let min_ : ℚ := (lon - (deg : ℚ)) * 60
  padLeftZeros 3 (natStr deg) ++ fmt_05_2f min_ ++ direction

/-- Source: `SYMBOL_MAP` (src/APRS_Beacon.py, lines 56-62), as an
association list in source order. -/
def SYMBOL_MAP : List (String × String) :=
  [("Antenna", "r"),
   ("Ballon", "O"),
   ("Home", "-"),
   ("WX Station", "_"),
   ("Dish antenna", "\x60")]

/-- Model of the dictionary lookup `SYMBOL_MAP.get(label, "-")` used at
line 135 of the source: the value of the first matching key, defaulting
to the dash. -/
def symbol_get (label : String) : String :=
  ((SYMBOL_MAP.find? (fun p => p.1 == label)).map Prod.snd).getD "-"

/-- Checks whether `p` is a leading segment of `s`. -/
def isPrefOf : List Char → List Char → Bool
  | [], _ => true
  | _ :: _, [] => false
  | a :: as, b :: bs => a == b && isPrefOf as bs

/-- Naive substring search on character lists. -/
def infixOf (p : List Char) : List Char → Bool
  | [] => isPrefOf p []
  | c :: rest => isPrefOf p (c :: rest) || infixOf p rest

/-- Model of the Python substring test `pat in s`. -/
def strContains (s pat : String) : Bool := infixOf pat.data s.data

/-- Model of `str.lower()` (character-wise; the ASCII range is all the
program ever compares against). -/
def strLower (s : String) : String := String.mk (s.data.map Char.toLower)

/-- Model of `str.strip()`: drop whitespace from both ends. -/
def strTrim (s : String) : String :=
  String.mk (((s.data.dropWhile Char.isWhitespace).reverse.dropWhile
    Char.isWhitespace).reverse)

/-- Source: `wait_for_logresp` (src/APRS_Beacon.py, lines 67-81).  The
lines the server delivered within the read window are the input; the
result is the first line whose lowercasing contains the token, stripped —
or none, which models both the timeout and the connection closing. -/
def wait_for_logresp (lines : List String) : Option String :=
  (lines.find? (fun line => strContains (strLower line) "logresp")).map strTrim

/-- Configuration record as produced by `load_config`
(src/APRS_Beacon.py, lines 90-106); latitude and longitude idealised
as rationals. -/
structure Config where
  server : String
  port : Nat
  interval : Nat
  symbol : String
  comment : String
  lat : ℚ
  lon : ℚ
  call : String
  ssid : String
  password : String
  autostart : Bool

/-- Wall-clock UTC time as consumed by `time.strftime` in `build_packet`. -/
structure UTCTime where
  hour : Nat
  minute : Nat
  second : Nat

/-- Model of `time.strftime("%H%M%Sz", time.gmtime())`: the three fields
zero-padded to two digits, then the literal z. -/
def fmtHMSz (t : UTCTime) : String :=
  padLeftZeros 2 (natStr t.hour) ++ padLeftZeros 2 (natStr t.minute) ++
    padLeftZeros 2 (natStr t.second) ++ "z"

/-- Source: `build_packet` (src/APRS_Beacon.py, lines 131-137).  The ssid
suffix is the dash plus the ssid when the ssid string is non-empty
(Python truthiness) and empty otherwise; current wall-clock time is an
explicit argument. -/
def build_packet (cfg : Config) (t : UTCTime) : String :=
  let ssid := if cfg.ssid = "" then "" else "-" ++ cfg.ssid
  let lat := decimal_to_aprs_lat cfg.lat
  let lon := decimal_to_aprs_lon cfg.lon
  let symbol := symbol_get cfg.symbol
  let timestamp := fmtHMSz t
  cfg.call ++ ssid ++ ">APU25N,TCPIP*:@" ++ timestamp ++ lat ++ "/" ++ lon
    ++ symbol ++ cfg.comment

/-- Login line sent in step 2 of `send_beacon` (line 159 of the source). -/
def login_line (cfg : Config) : String :=
  "user " ++ cfg.call ++ " pass " ++ cfg.password ++ " vers PY-APRS\n"

/-- Oracle for the network effects of one connection attempt: whether the
connect, the login write and the beacon write succeed, and which lines the
server delivers while the client waits for the acknowledgement. -/
structure NetEnv where
  connectOk : Bool
  loginSendOk : Bool
  recvLines : List String
  beaconSendOk : Bool

/-- Failure of a single connection attempt, in the order the corresponding
exceptions can arise in the body of the try block of `send_beacon`:
`connectFailed` for `socket.create_connection`, `loginSendFailed` for the
login `sendall`, `loginNotAcknowledged` for the RuntimeError raised when
`wait_for_logresp` returned a falsy value, `transmitFailed` for the beacon
`sendall`. -/
inductive AttemptError where
  | connectFailed
  | loginSendFailed
  | loginNotAcknowledged
  | transmitFailed
deriving DecidableEq

/-- Error surfaced by `send_beacon` to its caller: the bare re-raise at
line 186 of the source happens exactly when the retry budget is exhausted,
so it is modelled as a wrapper recording the last attempt error. -/
inductive SendError where
  | retriesExhausted (last : AttemptError)
deriving DecidableEq

/-- One iteration of the try block of `send_beacon`
(src/APRS_Beacon.py, lines 153-181): connect, send the login line, wait
for the acknowledgement (a falsy result raises), send the packet.  The
successful value is the packet text that was transmitted. -/
def run_attempt (cfg : Config) (t : UTCTime) (env : NetEnv) :
    Except AttemptError String :=
  if env.connectOk = false then .error .connectFailed
  else if env.loginSendOk = false then .error .loginSendFailed
  else
    match wait_for_logresp env.recvLines with
    | none => .error .loginNotAcknowledged
    | some line =>
      if line = "" then .error .loginNotAcknowledged
      else if env.beaconSendOk = false then .error .transmitFailed
      else .ok (build_packet cfg t)

/-- Observable outcome of one `send_beacon` call: the packet counter after
the call, the number of connection attempts performed, the number of
`time.sleep(retry_delay)` pauses taken between attempts, and the returned
value or surfaced error. -/
structure SendResult where
  packet_count : Nat
  connAttempts : Nat
  retrySleeps : Nat
  outcome : Except SendError String

/-- The while loop of `send_beacon` (src/APRS_Beacon.py, lines 151-195),
by recursion on the number of retries still available
(`remaining = retries - attempt`; the loop guard `attempt <= retries`
never fails, every exit is a return or a raise).  The attempt index
selects the oracle for that iteration; `count` is the packet counter
(`self.packet_count`) on entry.  With no retry left an attempt error is
re-raised to the caller, which the model wraps as `retriesExhausted`;
otherwise the loop sleeps for the retry delay and runs the next attempt. -/
def send_loop (cfg : Config) (t : UTCTime) (env : Nat → NetEnv)
    (count : Nat) (attempt : Nat) : Nat → SendResult
  | 0 =>
    match run_attempt cfg t (env attempt) with
    | .ok p => ⟨count + 1, 1, 0, .ok p⟩
    | .error e => ⟨count, 1, 0, .error (.retriesExhausted e)⟩
  | remaining + 1 =>
    match run_attempt cfg t (env attempt) with
    | .ok p => ⟨count + 1, 1, 0, .ok p⟩
    | .error _ =>
      let rest := send_loop cfg t env count (attempt + 1) remaining
      ⟨rest.packet_count, rest.connAttempts + 1, rest.retrySleeps + 1,
        rest.outcome⟩

/-- Source: `APRSSender.send_beacon` (src/APRS_Beacon.py, lines 148-195)
with retry budget `retries` (source default 2) and entry counter value
`count`. -/
def send_beacon (cfg : Config) (t : UTCTime) (env : Nat → NetEnv)
    (retries : Nat) (count : Nat) : SendResult :=
  send_loop cfg t env count 0 retries

/-- Value of a decimal digit character (48 is the code of the zero digit). -/
def charVal (c : Char) : Nat := c.toNat - 48

/-- Value of a string of decimal digit characters, most significant first. -/
def charsVal (cs : List Char) : Nat := cs.foldl (fun a c => 10 * a + charVal c) 0

/-- Modelled from the spec: the repository has no decoder, so this is the
section 8 decoder of an encoded latitude field, parsing 2 degree digits,
decimal minutes in the fixed positions of the 05.2f field, and the
hemisphere letter back to signed decimal degrees. -/
def decode_lat (s : String) : ℚ :=
  let cs := s.data
  let deg := charsVal (cs.take 2)
  let whole := charsVal ((cs.drop 2).take 2)
  let frac := charsVal ((cs.drop 5).take 2)
  let minutes : ℚ := (whole : ℚ) + (frac : ℚ) / 100
  let v := (deg : ℚ) + minutes / 60
  if cs.getLast? = some 'S' then -v else v

/-- Modelled from the spec: the repository has no decoder, so this is the
section 8 decoder of an encoded longitude field, parsing 3 degree digits,
decimal minutes and the hemisphere letter back to signed decimal degrees. -/
def decode_lon (s : String) : ℚ :=
  let cs := s.data
  let deg := charsVal (cs.take 3)
  let whole := charsVal ((cs.drop 3).take 2)
  let frac := charsVal ((cs.drop 6).take 2)
  let minutes : ℚ := (whole : ℚ) + (frac : ℚ) / 100
  let v := (deg : ℚ) + minutes / 60
  if cs.getLast? = some 'W' then -v else v

example : natStr 450 = "450" := by decide

example : renderCenti 3000 = "30.00" := by decide

example : renderCenti 6000 = "60.00" := by decide

example : renderCenti 705 = "07.05" := by decide

example : symbol_get "Home" = "-" := by decide

example : symbol_get "Foo" = "-" := by decide

example : symbol_get "Antenna" = "r" := by decide

example : strContains (strLower "# LoGrEsP N0CALL verified") "logresp" = true := by decide

example : wait_for_logresp ["# hello", "# logresp ok "] = some "# logresp ok" := by decide

example : fmtHMSz ⟨12, 0, 0⟩ = "120000z" := by decide

/-! Supporting lemmas about the digit printer and padding. -/

theorem natDigitsAux_length_pos : ∀ fuel n, n < fuel →
    1 ≤ (natDigitsAux fuel n).length := by
  intro fuel
  induction fuel with
  | zero => intro n h; omega
  | succ fuel ih =>
    intro n h
    rw [natDigitsAux]
    split <;> simp

theorem natDigitsAux_length_le : ∀ fuel n k, n < fuel → n < 10 ^ k → 1 ≤ k →
    (natDigitsAux fuel n).length ≤ k := by
  intro fuel
  induction fuel with
  | zero => intro n k h; omega
  | succ fuel ih =>
    intro n k h hk h1
    rw [natDigitsAux]
    split
    · simpa using h1
    · rename_i h10
      push_neg at h10
      obtain ⟨k', rfl⟩ : ∃ k', k = k' + 1 := ⟨k - 1, by omega⟩
      rcases Nat.eq_zero_or_pos k' with rfl | hpos
      · norm_num at hk; omega
      · have hdiv : n / 10 < n := Nat.div_lt_self (by omega) (by omega)
        have hfuel : n / 10 < fuel := by omega
        have hk' : n / 10 < 10 ^ k' := by
          rw [Nat.div_lt_iff_lt_mul (by norm_num)]
          calc n < 10 ^ (k' + 1) := hk
          _ = 10 ^ k' * 10 := by ring
        have := ih (n / 10) k' hfuel hk' hpos
        simp only [List.length_append, List.length_cons, List.length_nil]
        omega

theorem charVal_digitChar : ∀ d, d < 10 → charVal (digitChar d) = d := by decide

theorem digitChar_ne_newline : ∀ d, d < 10 → digitChar d ≠ '\n' := by decide

theorem charsVal_append_singleton (l : List Char) (c : Char) :
    charsVal (l ++ [c]) = 10 * charsVal l + charVal c := by
  simp [charsVal, List.foldl_append]

theorem charsVal_natDigitsAux : ∀ fuel n, n < fuel →
    charsVal (natDigitsAux fuel n) = n := by
  intro fuel
  induction fuel with
  | zero => intro n h; omega
  | succ fuel ih =>
    intro n h
    rw [natDigitsAux]
    split
    · rename_i h10
      simp [charsVal, charVal_digitChar n h10]
    · rename_i h10
      push_neg at h10
      have hdiv : n / 10 < n := Nat.div_lt_self (by omega) (by omega)
      rw [charsVal_append_singleton, ih (n / 10) (by omega),
        charVal_digitChar (n % 10) (Nat.mod_lt _ (by omega))]
      omega

theorem natDigitsAux_mem_digit : ∀ fuel n c, n < fuel → c ∈ natDigitsAux fuel n →
    ∃ d, d < 10 ∧ c = digitChar d := by
  intro fuel
  induction fuel with
  | zero => intro n c h; omega
  | succ fuel ih =>
    intro n c h hc
    rw [natDigitsAux] at hc
    split at hc
    · rename_i h10
      simp at hc
      exact ⟨n, h10, hc⟩
    · rename_i h10
      push_neg at h10
      have hdiv : n / 10 < n := Nat.div_lt_self (by omega) (by omega)
      rcases List.mem_append.mp hc with h1 | h1
      · exact ih (n / 10) c (by omega) h1
      · simp at h1
        exact ⟨n % 10, Nat.mod_lt _ (by omega), h1⟩

theorem natStr_length_pos (n : Nat) : 1 ≤ (natStr n).length :=
  natDigitsAux_length_pos (n + 1) n (Nat.lt_succ_self n)

theorem natStr_length_le (n k : Nat) (hk : n < 10 ^ k) (h1 : 1 ≤ k) :
    (natStr n).length ≤ k :=
  natDigitsAux_length_le (n + 1) n k (Nat.lt_succ_self n) hk h1

theorem charsVal_natStr (n : Nat) : charsVal (natStr n).data = n :=
  charsVal_natDigitsAux (n + 1) n (Nat.lt_succ_self n)

theorem natStr_mem_digit (n : Nat) (c : Char) (hc : c ∈ (natStr n).data) :
    ∃ d, d < 10 ∧ c = digitChar d :=
  natDigitsAux_mem_digit (n + 1) n c (Nat.lt_succ_self n) hc

theorem padLeftZeros_data (w : Nat) (s : String) :
    (padLeftZeros w s).data = List.replicate (w - s.length) '0' ++ s.data := by
  rw [padLeftZeros]
  split
  · rename_i h
    rw [Nat.sub_eq_zero_of_le h]
    simp
  · rw [String.data_append]

theorem padLeftZeros_length (w : Nat) (s : String) :
    (padLeftZeros w s).length = max w s.length := by
  have hd : (padLeftZeros w s).length = (padLeftZeros w s).data.length := rfl
  have hs : s.length = s.data.length := rfl
  rw [hd, padLeftZeros_data, List.length_append, List.length_replicate]
  omega

theorem charsVal_replicate_zero (k : Nat) (l : List Char) :
    charsVal (List.replicate k '0' ++ l) = charsVal l := by
  induction k with
  | zero => simp
  | succ k ih =>
    rw [List.replicate_succ, List.cons_append]
    show List.foldl _ (10 * 0 + charVal '0') _ = _
    have h0 : 10 * 0 + charVal '0' = 0 := by decide
    rw [h0]
    exact ih

theorem charsVal_padLeftZeros_natStr (w n : Nat) :
    charsVal (padLeftZeros w (natStr n)).data = n := by
  rw [padLeftZeros_data, charsVal_replicate_zero, charsVal_natStr]

theorem padLeftZeros_mem (w : Nat) (s : String) (c : Char)
    (hc : c ∈ (padLeftZeros w s).data) : c = '0' ∨ c ∈ s.data := by
  rw [padLeftZeros_data] at hc
  rcases List.mem_append.mp hc with h | h
  · exact Or.inl (List.eq_of_mem_replicate h)
  · exact Or.inr h

/-! Shape of the rendered minutes field and of the encoder outputs. -/

theorem renderCenti_data (n : Nat) (h : n ≤ 6000) :
    (renderCenti n).data =
      (padLeftZeros 2 (natStr (n / 100))).data ++
        '.' :: (padLeftZeros 2 (natStr (n % 100))).data := by
  have h100 : (10 : Nat) ^ 2 = 100 := by norm_num
  have ha1 : 1 ≤ (natStr (n / 100)).length := natStr_length_pos _
  have ha2 : (natStr (n / 100)).length ≤ 2 :=
    natStr_length_le _ 2 (by rw [h100]; omega) (by omega)
  have hf2 : (natStr (n % 100)).length ≤ 2 :=
    natStr_length_le _ 2 (by rw [h100]; omega) (by omega)
  have hpf : (padLeftZeros 2 (natStr (n % 100))).length = 2 := by
    rw [padLeftZeros_length]; omega
  have hdot : ("." : String).length = 1 := rfl
  have hinner : (natStr (n / 100) ++ "." ++ padLeftZeros 2 (natStr (n % 100))).length
      = (natStr (n / 100)).length + 3 := by
    rw [String.length_append, String.length_append, hpf, hdot]
  rw [renderCenti, padLeftZeros_data, hinner, padLeftZeros_data 2 (natStr (n / 100))]
  have hcount : 5 - ((natStr (n / 100)).length + 3) = 2 - (natStr (n / 100)).length := by
    omega
  rw [hcount, String.data_append, String.data_append, List.append_assoc]
  simp

theorem renderCenti_length (n : Nat) (h : n ≤ 6000) : (renderCenti n).length = 5 := by
  have h100 : (10 : Nat) ^ 2 = 100 := by norm_num
  have ha2 : (natStr (n / 100)).length ≤ 2 :=
    natStr_length_le _ 2 (by rw [h100]; omega) (by omega)
  have hf2 : (natStr (n % 100)).length ≤ 2 :=
    natStr_length_le _ 2 (by rw [h100]; omega) (by omega)
  have hd : (renderCenti n).length = (renderCenti n).data.length := rfl
  rw [hd, renderCenti_data n h, List.length_append, List.length_cons]
  have h1 : (padLeftZeros 2 (natStr (n / 100))).data.length
      = (padLeftZeros 2 (natStr (n / 100))).length := rfl
  have h2 : (padLeftZeros 2 (natStr (n % 100))).data.length
      = (padLeftZeros 2 (natStr (n % 100))).length := rfl
  rw [h1, h2, padLeftZeros_length, padLeftZeros_length]
  omega

theorem decimal_to_aprs_lat_data (lat : ℚ) :
    (decimal_to_aprs_lat lat).data =
      (padLeftZeros 2 (natStr ⌊|lat|⌋.toNat)).data ++
        ((renderCenti (round ((|lat| - (⌊|lat|⌋.toNat : ℚ)) * 60 * 100)).toNat).data ++
          [if lat ≥ 0 then 'N' else 'S']) := by
  rw [decimal_to_aprs_lat]
  simp only [fmt_05_2f, String.data_append]
  split <;> simp

theorem decimal_to_aprs_lon_data (lon : ℚ) :
    (decimal_to_aprs_lon lon).data =
      (padLeftZeros 3 (natStr ⌊|lon|⌋.toNat)).data ++
        ((renderCenti (round ((|lon| - (⌊|lon|⌋.toNat : ℚ)) * 60 * 100)).toNat).data ++
          [if lon ≥ 0 then 'E' else 'W']) := by
  rw [decimal_to_aprs_lon]
  simp only [fmt_05_2f, String.data_append]
  split <;> simp

/-! Numeric bounds on the degree and minutes fields. -/

theorem floor_toNat_cast (x : ℚ) (h : 0 ≤ x) : ((⌊x⌋.toNat : ℕ) : ℚ) = (⌊x⌋ : ℚ) := by
  have h1 : ((⌊x⌋.toNat : ℕ) : ℤ) = ⌊x⌋ := Int.toNat_of_nonneg (Int.floor_nonneg.mpr h)
  exact_mod_cast congrArg (fun z : ℤ => (z : ℚ)) h1

theorem minutes_range (x : ℚ) (h : 0 ≤ x) :
    0 ≤ (x - (⌊x⌋.toNat : ℚ)) * 60 ∧ (x - (⌊x⌋.toNat : ℚ)) * 60 < 60 := by
  rw [floor_toNat_cast x h]
  have h1 : 0 ≤ Int.fract x := Int.fract_nonneg x
  have h2 : Int.fract x < 1 := Int.fract_lt_one x
  rw [Int.fract] at h1 h2
  constructor <;> nlinarith

theorem round_nonneg_of_nonneg (y : ℚ) (h : 0 ≤ y) : 0 ≤ round y := by
  rw [round_eq]
  exact Int.floor_nonneg.mpr (by linarith)

theorem round_le_6000 (y : ℚ) (h : y < 6000) : round y ≤ 6000 := by
  rw [round_eq]
  have : ⌊y + 1 / 2⌋ < 6001 := Int.floor_lt.mpr (by push_cast; linarith)
  omega

theorem encoder_n_le (x : ℚ) (h : 0 ≤ x) :
    (round ((x - (⌊x⌋.toNat : ℚ)) * 60 * 100)).toNat ≤ 6000 := by
  obtain ⟨h1, h2⟩ := minutes_range x h
  have := round_le_6000 ((x - (⌊x⌋.toNat : ℚ)) * 60 * 100) (by nlinarith)
  omega

theorem encoder_n_cast (x : ℚ) (h : 0 ≤ x) :
    (((round ((x - (⌊x⌋.toNat : ℚ)) * 60 * 100)).toNat : ℕ) : ℚ)
      = (round ((x - (⌊x⌋.toNat : ℚ)) * 60 * 100) : ℚ) := by
  obtain ⟨h1, _⟩ := minutes_range x h
  have hnn : 0 ≤ round ((x - (⌊x⌋.toNat : ℚ)) * 60 * 100) :=
    round_nonneg_of_nonneg _ (by nlinarith)
  have h2 : (((round ((x - (⌊x⌋.toNat : ℚ)) * 60 * 100)).toNat : ℕ) : ℤ)
      = round ((x - (⌊x⌋.toNat : ℚ)) * 60 * 100) := Int.toNat_of_nonneg hnn
  exact_mod_cast congrArg (fun z : ℤ => (z : ℚ)) h2

/-! Substring search lemmas. -/

theorem isPrefOf_append (p t : List Char) : isPrefOf p (p ++ t) = true := by
  induction p with
  | nil => rfl
  | cons a as ih => simp [isPrefOf, ih]

theorem infixOf_here (p t : List Char) : infixOf p (p ++ t) = true := by
  cases p with
  | nil => cases t <;> simp [infixOf, isPrefOf]
  | cons x xs =>
    rw [List.cons_append, infixOf]
    have h := isPrefOf_append (x :: xs) t
    rw [List.cons_append] at h
    simp [h]

theorem infixOf_cons (c : Char) (p s : List Char) (h : infixOf p s = true) :
    infixOf p (c :: s) = true := by
  simp [infixOf, h]

theorem infixOf_append_of (x : List Char) {p s : List Char} (h : infixOf p s = true) :
    infixOf p (x ++ s) = true := by
  induction x with
  | nil => simpa using h
  | cons c x' ih => rw [List.cons_append]; exact infixOf_cons c p _ ih

/-! Claim theorems. -/

/-- C7: symbol lookup is a total function: every label in the enumerated
symbol set maps to a unique single character (the mapped characters are
pairwise distinct and each is a single character), and any label outside
the set maps to the dash. -/
theorem symbol_lookup_total :
    (SYMBOL_MAP.map Prod.snd).Nodup ∧
    (∀ p ∈ SYMBOL_MAP, p.2.length = 1 ∧ symbol_get p.1 = p.2) ∧
    (∀ label : String, label ∉ SYMBOL_MAP.map Prod.fst → symbol_get label = "-") := by
  refine ⟨by decide, by decide, ?_⟩
  intro label h
  have hfind : SYMBOL_MAP.find? (fun p => p.1 == label) = none := by
    rw [List.find?_eq_none]
    intro p hp
    have hne : p.1 ≠ label := fun he => h (he ▸ List.mem_map_of_mem Prod.fst hp)
    simpa using hne
  rw [symbol_get, hfind]
  rfl

/-- C10: an unrecognized symbol label and the in-set label Home both
produce the dash, so the packet built for the unknown label is equal to
the packet built for Home with all other fields unchanged, even though
the in-set labels map to pairwise distinct characters. -/
theorem unknown_label_packet_eq_home :
    symbol_get "Unknown" = symbol_get "Home" ∧
    "Unknown" ∉ SYMBOL_MAP.map Prod.fst ∧
    (∀ (cfg : Config) (t : UTCTime),
      build_packet { cfg with symbol := "Unknown" } t =
        build_packet { cfg with symbol := "Home" } t) ∧
    (SYMBOL_MAP.map Prod.snd).Nodup := by
  refine ⟨by decide, by decide, fun cfg t => rfl, by decide⟩

/-- C6: every packet has the shape identity, constant path, timestamp,
position, symbol, comment: when the ssid is empty the dash is omitted
entirely, otherwise the identity is call-dash-ssid, and the constant path
identifier occurs in every packet. -/
theorem build_packet_shape (cfg : Config) (t : UTCTime) :
    (cfg.ssid = "" →
      build_packet cfg t =
        cfg.call ++ ">APU25N,TCPIP*:@" ++ fmtHMSz t ++
          decimal_to_aprs_lat cfg.lat ++ "/" ++ decimal_to_aprs_lon cfg.lon ++
          symbol_get cfg.symbol ++ cfg.comment) ∧
    (cfg.ssid ≠ "" →
      build_packet cfg t =
        cfg.call ++ "-" ++ cfg.ssid ++ ">APU25N,TCPIP*:@" ++ fmtHMSz t ++
          decimal_to_aprs_lat cfg.lat ++ "/" ++ decimal_to_aprs_lon cfg.lon ++
          symbol_get cfg.symbol ++ cfg.comment) ∧
    strContains (build_packet cfg t) "APU25N,TCPIP*" = true := by
  refine ⟨?_, ?_, ?_⟩
  · intro h
    simp [build_packet, h]
  · intro h
    simp only [build_packet, if_neg h]
    simp [String.append_assoc]
  · rw [strContains, build_packet]
    simp only [String.data_append, List.append_assoc]
    apply infixOf_append_of
    apply infixOf_append_of
    simp only [List.cons_append, List.nil_append]
    apply infixOf_cons
    exact infixOf_here _ _

/-! Newline-freeness of the builder-generated fields. -/

theorem natStr_no_newline (n : Nat) : '\n' ∉ (natStr n).data := by
  intro h
  obtain ⟨d, hd, he⟩ := natStr_mem_digit n _ h
  exact digitChar_ne_newline d hd he.symm

theorem padLeftZeros_no_newline (w : Nat) (s : String) (h : '\n' ∉ s.data) :
    '\n' ∉ (padLeftZeros w s).data := by
  intro hc
  rcases padLeftZeros_mem w s _ hc with h0 | h0
  · exact absurd h0 (by decide)
  · exact h h0

theorem renderCenti_no_newline (n : Nat) : '\n' ∉ (renderCenti n).data := by
  rw [renderCenti]
  apply padLeftZeros_no_newline
  intro hc
  simp only [String.data_append, List.mem_append] at hc
  rcases hc with (hc | hc) | hc
  · exact natStr_no_newline _ hc
  · exact absurd hc (by decide)
  · exact padLeftZeros_no_newline 2 _ (natStr_no_newline _) hc

theorem fmt_05_2f_no_newline (x : ℚ) : '\n' ∉ (fmt_05_2f x).data :=
  renderCenti_no_newline _

theorem decimal_to_aprs_lat_no_newline (lat : ℚ) :
    '\n' ∉ (decimal_to_aprs_lat lat).data := by
  rw [decimal_to_aprs_lat_data]
  intro hc
  simp only [List.mem_append] at hc
  rcases hc with hc | hc | hc
  · exact padLeftZeros_no_newline 2 _ (natStr_no_newline _) hc
  · exact renderCenti_no_newline _ hc
  · revert hc; split <;> decide

theorem decimal_to_aprs_lon_no_newline (lon : ℚ) :
    '\n' ∉ (decimal_to_aprs_lon lon).data := by
  rw [decimal_to_aprs_lon_data]
  intro hc
  simp only [List.mem_append] at hc
  rcases hc with hc | hc | hc
  · exact padLeftZeros_no_newline 3 _ (natStr_no_newline _) hc
  · exact renderCenti_no_newline _ hc
  · revert hc; split <;> decide

theorem fmtHMSz_no_newline (t : UTCTime) : '\n' ∉ (fmtHMSz t).data := by
  rw [fmtHMSz]
  intro hc
  simp only [String.data_append, List.mem_append] at hc
  rcases hc with ((hc | hc) | hc) | hc
  · exact padLeftZeros_no_newline 2 _ (natStr_no_newline _) hc
  · exact padLeftZeros_no_newline 2 _ (natStr_no_newline _) hc
  · exact padLeftZeros_no_newline 2 _ (natStr_no_newline _) hc
  · exact absurd hc (by decide)

theorem symbol_get_no_newline (label : String) : '\n' ∉ (symbol_get label).data := by
  rw [symbol_get]
  cases hf : SYMBOL_MAP.find? (fun p => p.1 == label) with
  | none => decide
  | some p =>
    have hp : p ∈ SYMBOL_MAP := List.mem_of_find?_eq_some hf
    have : ∀ q ∈ SYMBOL_MAP, '\n' ∉ q.2.data := by decide
    simpa using this p hp

/-- C9 (amended): provided the call, ssid and comment fields themselves
contain no newline character, the built packet is a single line with no
embedded newline; a newline inside any of those free-text fields is passed
through to the packet verbatim. -/
theorem build_packet_no_newline (cfg : Config) (t : UTCTime)
    (h1 : '\n' ∉ cfg.call.data) (h2 : '\n' ∉ cfg.ssid.data)
    (h3 : '\n' ∉ cfg.comment.data) : '\n' ∉ (build_packet cfg t).data := by
  rw [build_packet]
  intro hc
  by_cases hs : cfg.ssid = "" <;>
    simp only [hs, if_pos, if_neg, ite_true, ite_false, String.data_append,
      List.mem_append] at hc
  · rcases hc with (((((((hc | hc) | hc) | hc) | hc) | hc) | hc) | hc) | hc
    · exact h1 hc
    · exact absurd hc (by decide)
    · exact absurd hc (by decide)
    · exact fmtHMSz_no_newline t hc
    · exact decimal_to_aprs_lat_no_newline _ hc
    · exact absurd hc (by decide)
    · exact decimal_to_aprs_lon_no_newline _ hc
    · exact symbol_get_no_newline _ hc
    · exact h3 hc
  · rcases hc with (((((((hc | (hc | hc)) | hc) | hc) | hc) | hc) | hc) | hc) | hc
    · exact h1 hc
    · exact absurd hc (by decide)
    · exact h2 hc
    · exact absurd hc (by decide)
    · exact fmtHMSz_no_newline t hc
    · exact decimal_to_aprs_lat_no_newline _ hc
    · exact absurd hc (by decide)
    · exact decimal_to_aprs_lon_no_newline _ hc
    · exact symbol_get_no_newline _ hc
    · exact h3 hc

/-- C9 (counterexample): a configuration whose comment contains a newline
produces a packet with an embedded newline, refuting the claim that the
built packet never contains one for every configuration. -/
theorem build_packet_newline_counterexample :
    '\n' ∈ (build_packet
      ⟨"rotate.aprs2.net", 14580, 10, "Home", "line1\nline2", 0, 0,
        "N0CALL", "9", "12345", false⟩ ⟨12, 0, 0⟩).data := by
  rw [build_packet]
  rw [String.data_append]
  apply List.mem_append_right
  decide

/-- C9 (witness for the amended theorem): a concrete newline-free
configuration yields a newline-free packet. -/
theorem build_packet_no_newline_witness :
    '\n' ∉ (build_packet
      ⟨"rotate.aprs2.net", 14580, 10, "Home", "test", 0, 0,
        "N0CALL", "9", "12345", false⟩ ⟨12, 0, 0⟩).data :=
  build_packet_no_newline _ _ (by decide) (by decide) (by decide)

/-! Concrete evaluation helpers for the encoders. -/

theorem decimal_to_aprs_lat_eval (lat : ℚ) (d n : Nat)
    (hfl : ⌊|lat|⌋.toNat = d)
    (hrd : (round ((|lat| - (d : ℚ)) * 60 * 100)).toNat = n) :
    decimal_to_aprs_lat lat =
      padLeftZeros 2 (natStr d) ++ renderCenti n ++
        (if lat ≥ 0 then "N" else "S") := by
  simp only [decimal_to_aprs_lat, fmt_05_2f]
  rw [hfl, hrd]

theorem decimal_to_aprs_lon_eval (lon : ℚ) (d n : Nat)
    (hfl : ⌊|lon|⌋.toNat = d)
    (hrd : (round ((|lon| - (d : ℚ)) * 60 * 100)).toNat = n) :
    decimal_to_aprs_lon lon =
      padLeftZeros 3 (natStr d) ++ renderCenti n ++
        (if lon ≥ 0 then "E" else "W") := by
  simp only [decimal_to_aprs_lon, fmt_05_2f]
  rw [hfl, hrd]

theorem lat_45_5_eval : decimal_to_aprs_lat (45.5 : ℚ) = "4530.00N" := by
  have habs : |(45.5 : ℚ)| = 45.5 := abs_of_nonneg (by norm_num)
  have hfl : ⌊|(45.5 : ℚ)|⌋.toNat = 45 := by
    have h : ⌊|(45.5 : ℚ)|⌋ = 45 := by rw [habs]; norm_num
    rw [h]; rfl
  have hrd : (round ((|(45.5 : ℚ)| - (45 : ℚ)) * 60 * 100)).toNat = 3000 := by
    have h : round ((|(45.5 : ℚ)| - (45 : ℚ)) * 60 * 100) = 3000 := by
      rw [habs, round_eq]; norm_num
    rw [h]; rfl
  rw [decimal_to_aprs_lat_eval (45.5 : ℚ) 45 3000 hfl hrd, if_pos (by norm_num)]
  decide

theorem lon_m73_25_eval : decimal_to_aprs_lon (-73.25 : ℚ) = "07315.00W" := by
  have habs : |(-73.25 : ℚ)| = 73.25 := by
    rw [abs_of_nonpos (by norm_num : (-73.25 : ℚ) ≤ 0)]
    norm_num
  have hfl : ⌊|(-73.25 : ℚ)|⌋.toNat = 73 := by
    have h : ⌊|(-73.25 : ℚ)|⌋ = 73 := by rw [habs]; norm_num
    rw [h]; rfl
  have hrd : (round ((|(-73.25 : ℚ)| - (73 : ℚ)) * 60 * 100)).toNat = 1500 := by
    have h : round ((|(-73.25 : ℚ)| - (73 : ℚ)) * 60 * 100) = 1500 := by
      rw [habs, round_eq]; norm_num
    rw [h]; rfl
  rw [decimal_to_aprs_lon_eval (-73.25 : ℚ) 73 1500 hfl hrd,
    if_neg (by norm_num)]
  decide

/-- C3: the configuration with call N0CALL, ssid 9, latitude 45.5,
longitude -73.25, symbol Home and comment test at UTC time 12:00:00
produces the expected packet, which contains the position fields
4530.00N and 07315.00W, the identity N0CALL-9, and the dash symbol
character. -/
theorem build_packet_scenario :
    build_packet
        ⟨"rotate.aprs2.net", 14580, 10, "Home", "test", 45.5, -73.25,
          "N0CALL", "9", "12345", false⟩ ⟨12, 0, 0⟩ =
      "N0CALL-9>APU25N,TCPIP*:@120000z4530.00N/07315.00W-test" ∧
    strContains (build_packet
        ⟨"rotate.aprs2.net", 14580, 10, "Home", "test", 45.5, -73.25,
          "N0CALL", "9", "12345", false⟩ ⟨12, 0, 0⟩) "4530.00N" = true ∧
    strContains (build_packet
        ⟨"rotate.aprs2.net", 14580, 10, "Home", "test", 45.5, -73.25,
          "N0CALL", "9", "12345", false⟩ ⟨12, 0, 0⟩) "07315.00W" = true ∧
    strContains (build_packet
        ⟨"rotate.aprs2.net", 14580, 10, "Home", "test", 45.5, -73.25,
          "N0CALL", "9", "12345", false⟩ ⟨12, 0, 0⟩) "N0CALL-9" = true ∧
    symbol_get "Home" = "-" := by
  have hp : build_packet
      ⟨"rotate.aprs2.net", 14580, 10, "Home", "test", 45.5, -73.25,
        "N0CALL", "9", "12345", false⟩ ⟨12, 0, 0⟩ =
      "N0CALL-9>APU25N,TCPIP*:@120000z4530.00N/07315.00W-test" := by
    rw [build_packet]
    simp only
    rw [lat_45_5_eval, lon_m73_25_eval]
    decide
  refine ⟨hp, ?_, ?_, ?_, by decide⟩ <;> rw [hp] <;> decide

/-- C8: whenever the decimal minutes of the input round to 60.00 under the
2-decimal formatting, the encoder emits the literal minutes text 60.00
after the unchanged degrees field: nothing is carried into the degrees and
the output is not renormalized into the next degree. -/
theorem minutes_sixty_not_renormalized :
    (∀ lat : ℚ, round ((|lat| - (⌊|lat|⌋.toNat : ℚ)) * 60 * 100) = 6000 →
      decimal_to_aprs_lat lat =
        padLeftZeros 2 (natStr ⌊|lat|⌋.toNat) ++ "60.00" ++
          (if lat ≥ 0 then "N" else "S")) ∧
    (∀ lon : ℚ, round ((|lon| - (⌊|lon|⌋.toNat : ℚ)) * 60 * 100) = 6000 →
      decimal_to_aprs_lon lon =
        padLeftZeros 3 (natStr ⌊|lon|⌋.toNat) ++ "60.00" ++
          (if lon ≥ 0 then "E" else "W")) := by
  have h60 : renderCenti 6000 = "60.00" := by decide
  constructor
  · intro x hx
    have hrd : (round ((|x| - (⌊|x|⌋.toNat : ℚ)) * 60 * 100)).toNat = 6000 := by
      rw [hx]; rfl
    rw [decimal_to_aprs_lat_eval x ⌊|x|⌋.toNat 6000 rfl hrd, h60]
  · intro y hy
    have hrd : (round ((|y| - (⌊|y|⌋.toNat : ℚ)) * 60 * 100)).toNat = 6000 := by
      rw [hy]; rfl
    rw [decimal_to_aprs_lon_eval y ⌊|y|⌋.toNat 6000 rfl hrd, h60]

/-- C8 (witness): latitude 44.99999 has minutes 59.9994, which round to
60.00, and encodes to 4460.00N with the degrees field still 44; longitude
99.99999 likewise encodes to 09960.00E. -/
theorem minutes_sixty_witness :
    decimal_to_aprs_lat (44.99999 : ℚ) = "4460.00N" ∧
    decimal_to_aprs_lon (99.99999 : ℚ) = "09960.00E" := by
  constructor
  · have habs : |(44.99999 : ℚ)| = 44.99999 := abs_of_nonneg (by norm_num)
    have hfl : ⌊|(44.99999 : ℚ)|⌋.toNat = 44 := by
      have h : ⌊|(44.99999 : ℚ)|⌋ = 44 := by rw [habs]; norm_num
      rw [h]; rfl
    have hx : round ((|(44.99999 : ℚ)| -
        ((⌊|(44.99999 : ℚ)|⌋.toNat : ℕ) : ℚ)) * 60 * 100) = 6000 := by
      rw [hfl, habs, round_eq]; norm_num
    rw [minutes_sixty_not_renormalized.1 (44.99999 : ℚ) hx, hfl,
      if_pos (by norm_num)]
    decide
  · have habs : |(99.99999 : ℚ)| = 99.99999 := abs_of_nonneg (by norm_num)
    have hfl : ⌊|(99.99999 : ℚ)|⌋.toNat = 99 := by
      have h : ⌊|(99.99999 : ℚ)|⌋ = 99 := by rw [habs]; norm_num
      rw [h]; rfl
    have hy : round ((|(99.99999 : ℚ)| -
        ((⌊|(99.99999 : ℚ)|⌋.toNat : ℕ) : ℚ)) * 60 * 100) = 6000 := by
      rw [hfl, habs, round_eq]; norm_num
    rw [minutes_sixty_not_renormalized.2 (99.99999 : ℚ) hy, hfl,
      if_pos (by norm_num)]
    decide

theorem enc_length_aux (w d n : Nat) (c : Char)
    (hdlen : (natStr d).length ≤ w) (hn : n ≤ 6000) :
    ((padLeftZeros w (natStr d)).data ++ ((renderCenti n).data ++ [c])).length
      = w + 5 + 1 := by
  rw [List.length_append, List.length_append, List.length_cons, List.length_nil]
  have h1 : (padLeftZeros w (natStr d)).data.length
      = (padLeftZeros w (natStr d)).length := rfl
  have h2 : (renderCenti n).data.length = (renderCenti n).length := rfl
  rw [h1, h2, padLeftZeros_length, renderCenti_length n hn]
  omega

/-- C4: for latitudes in [-89.99, 89.99] and longitudes in
[-179.99, 179.99] the encoder output is the zero-padded degrees field
(width 2 for latitude, 3 for longitude), then the 5-character minutes
field with 2 decimal digits, then the hemisphere letter chosen by sign,
so its length is exactly width + 5 + 1. -/
theorem encoder_fixed_width :
    ∀ lat lon : ℚ, -89.99 ≤ lat → lat ≤ 89.99 → -179.99 ≤ lon → lon ≤ 179.99 →
      ((decimal_to_aprs_lat lat).length = 2 + 5 + 1 ∧
        (decimal_to_aprs_lat lat).data =
          (padLeftZeros 2 (natStr ⌊|lat|⌋.toNat)).data ++
            ((fmt_05_2f ((|lat| - (⌊|lat|⌋.toNat : ℚ)) * 60)).data ++
              [if lat ≥ 0 then 'N' else 'S']) ∧
        (padLeftZeros 2 (natStr ⌊|lat|⌋.toNat)).length = 2 ∧
        (fmt_05_2f ((|lat| - (⌊|lat|⌋.toNat : ℚ)) * 60)).length = 5) ∧
      ((decimal_to_aprs_lon lon).length = 3 + 5 + 1 ∧
        (decimal_to_aprs_lon lon).data =
          (padLeftZeros 3 (natStr ⌊|lon|⌋.toNat)).data ++
            ((fmt_05_2f ((|lon| - (⌊|lon|⌋.toNat : ℚ)) * 60)).data ++
              [if lon ≥ 0 then 'E' else 'W']) ∧
        (padLeftZeros 3 (natStr ⌊|lon|⌋.toNat)).length = 3 ∧
        (fmt_05_2f ((|lon| - (⌊|lon|⌋.toNat : ℚ)) * 60)).length = 5) := by
  intro lat lon h1 h2 h3 h4
  have h100 : (10 : Nat) ^ 2 = 100 := by norm_num
  have h1000 : (10 : Nat) ^ 3 = 1000 := by norm_num
  have hlatabs : |lat| ≤ 89.99 := abs_le.mpr ⟨h1, h2⟩
  have hlonabs : |lon| ≤ 179.99 := abs_le.mpr ⟨h3, h4⟩
  have hdlat : ⌊|lat|⌋.toNat < 100 := by
    have hc : (⌊|lat|⌋ : ℚ) < 90 := lt_of_le_of_lt (le_trans (Int.floor_le _) hlatabs) (by norm_num)
    have : ⌊|lat|⌋ < 90 := by exact_mod_cast hc
    omega
  have hdlon : ⌊|lon|⌋.toNat < 1000 := by
    have hc : (⌊|lon|⌋ : ℚ) < 180 := lt_of_le_of_lt (le_trans (Int.floor_le _) hlonabs) (by norm_num)
    have : ⌊|lon|⌋ < 180 := by exact_mod_cast hc
    omega
  have hdlenlat : (natStr ⌊|lat|⌋.toNat).length ≤ 2 :=
    natStr_length_le _ 2 (by rw [h100]; exact hdlat) (by omega)
  have hdlenlon : (natStr ⌊|lon|⌋.toNat).length ≤ 3 :=
    natStr_length_le _ 3 (by rw [h1000]; exact hdlon) (by omega)
  have hnlat := encoder_n_le |lat| (abs_nonneg lat)
  have hnlon := encoder_n_le |lon| (abs_nonneg lon)
  refine ⟨⟨?_, decimal_to_aprs_lat_data lat, ?_, ?_⟩,
    ⟨?_, decimal_to_aprs_lon_data lon, ?_, ?_⟩⟩
  · have hd : (decimal_to_aprs_lat lat).length
        = (decimal_to_aprs_lat lat).data.length := rfl
    rw [hd, decimal_to_aprs_lat_data]
    exact enc_length_aux 2 _ _ _ hdlenlat hnlat
  · rw [padLeftZeros_length]; omega
  · rw [fmt_05_2f]; exact renderCenti_length _ hnlat
  · have hd : (decimal_to_aprs_lon lon).length
        = (decimal_to_aprs_lon lon).data.length := rfl
    rw [hd, decimal_to_aprs_lon_data]
    exact enc_length_aux 3 _ _ _ hdlenlon hnlon
  · rw [padLeftZeros_length]; omega
  · rw [fmt_05_2f]; exact renderCenti_length _ hnlon

/-- C4 (witness): the concrete latitude 45.5 and longitude -73.25 are in
range and their encodings have lengths 8 and 9. -/
theorem encoder_fixed_width_witness :
    (decimal_to_aprs_lat (45.5 : ℚ)).length = 2 + 5 + 1 ∧
    (decimal_to_aprs_lon (-73.25 : ℚ)).length = 3 + 5 + 1 := by
  have h := encoder_fixed_width (45.5 : ℚ) (-73.25 : ℚ)
    (by norm_num) (by norm_num) (by norm_num) (by norm_num)
  exact ⟨h.1.1, h.2.1⟩

/-! Behaviour of the retry loop. -/

theorem run_attempt_noLogresp (cfg : Config) (t : UTCTime) (env : NetEnv)
    (hc : env.connectOk = true) (hl : env.loginSendOk = true)
    (hr : ∀ line ∈ env.recvLines, strContains (strLower line) "logresp" = false) :
    run_attempt cfg t env = .error .loginNotAcknowledged := by
  have hfind : env.recvLines.find?
      (fun line => strContains (strLower line) "logresp") = none := by
    rw [List.find?_eq_none]
    intro l hmem
    simp [hr l hmem]
  simp [run_attempt, hc, hl, wait_for_logresp, hfind]

/-- C1: with a retry budget of 2, when on all three attempts the
connection and the login write succeed but the server never sends a line
containing the logresp token, `send_beacon` performs exactly 3 connection
attempts, sleeps for the retry delay twice (between consecutive attempts),
and surfaces the retries-exhausted wrapping of the login-not-acknowledged
error. -/
theorem send_beacon_retries_exhausted (cfg : Config) (t : UTCTime)
    (env : Nat → NetEnv) (count : Nat)
    (hc : ∀ i, i ≤ 2 → (env i).connectOk = true)
    (hl : ∀ i, i ≤ 2 → (env i).loginSendOk = true)
    (hr : ∀ i, i ≤ 2 → ∀ line ∈ (env i).recvLines,
      strContains (strLower line) "logresp" = false) :
    (send_beacon cfg t env 2 count).connAttempts = 3 ∧
    (send_beacon cfg t env 2 count).retrySleeps = 2 ∧
    (send_beacon cfg t env 2 count).outcome =
      .error (.retriesExhausted .loginNotAcknowledged) := by
  have e0 := run_attempt_noLogresp cfg t (env 0) (hc 0 (by omega))
    (hl 0 (by omega)) (hr 0 (by omega))
  have e1 := run_attempt_noLogresp cfg t (env 1) (hc 1 (by omega))
    (hl 1 (by omega)) (hr 1 (by omega))
  have e2 := run_attempt_noLogresp cfg t (env 2) (hc 2 (by omega))
    (hl 2 (by omega)) (hr 2 (by omega))
  simp [send_beacon, send_loop, e0, e1, e2]

/-- C1 (witness): a server that delivers no lines at all, with connects
and writes succeeding, makes `send_beacon` with budget 2 attempt 3
connections, sleep twice, and surface the wrapped error. -/
theorem send_beacon_retries_exhausted_witness :
    (send_beacon
      ⟨"rotate.aprs2.net", 14580, 10, "Home", "test", 45.5, -73.25,
        "N0CALL", "9", "12345", false⟩ ⟨12, 0, 0⟩
      (fun _ => ⟨true, true, [], true⟩) 2 0).connAttempts = 3 ∧
    (send_beacon
      ⟨"rotate.aprs2.net", 14580, 10, "Home", "test", 45.5, -73.25,
        "N0CALL", "9", "12345", false⟩ ⟨12, 0, 0⟩
      (fun _ => ⟨true, true, [], true⟩) 2 0).retrySleeps = 2 ∧
    (send_beacon
      ⟨"rotate.aprs2.net", 14580, 10, "Home", "test", 45.5, -73.25,
        "N0CALL", "9", "12345", false⟩ ⟨12, 0, 0⟩
      (fun _ => ⟨true, true, [], true⟩) 2 0).outcome =
      .error (.retriesExhausted .loginNotAcknowledged) :=
  send_beacon_retries_exhausted _ _ _ 0
    (fun _ _ => rfl) (fun _ _ => rfl)
    (fun _ _ line h => absurd h (List.not_mem_nil line))

theorem send_loop_count (cfg : Config) (t : UTCTime) (env : Nat → NetEnv) :
    ∀ remaining attempt count,
      ((send_loop cfg t env count attempt remaining).packet_count = count + 1 ∧
        ∃ p, (send_loop cfg t env count attempt remaining).outcome = .ok p) ∨
      ((send_loop cfg t env count attempt remaining).packet_count = count ∧
        ∃ e, (send_loop cfg t env count attempt remaining).outcome = .error e) := by
  intro remaining
  induction remaining with
  | zero =>
    intro attempt count
    rw [send_loop]
    cases hr : run_attempt cfg t (env attempt) with
    | ok p => exact Or.inl ⟨rfl, p, rfl⟩
    | error e => exact Or.inr ⟨rfl, .retriesExhausted e, rfl⟩
  | succ r ih =>
    intro attempt count
    rw [send_loop]
    cases hr : run_attempt cfg t (env attempt) with
    | ok p => exact Or.inl ⟨rfl, p, rfl⟩
    | error e =>
      rcases ih (attempt + 1) count with ⟨h1, p, h2⟩ | ⟨h1, e', h2⟩
      · exact Or.inl ⟨h1, p, h2⟩
      · exact Or.inr ⟨h1, e', h2⟩

/-- C2: the packet counter changes only on success: a `send_beacon` call
whose outcome is a successfully transmitted packet leaves the counter at
exactly one more than its entry value, a call that surfaces an error
leaves it unchanged, the counter never decreases, and whenever the very
first attempt succeeds (connect, login write, logresp line received,
beacon write all succeed) the call succeeds with exactly one increment. -/
theorem send_beacon_counter (cfg : Config) (t : UTCTime) (env : Nat → NetEnv)
    (retries count : Nat) :
    (∀ p, (send_beacon cfg t env retries count).outcome = .ok p →
      (send_beacon cfg t env retries count).packet_count = count + 1) ∧
    (∀ e, (send_beacon cfg t env retries count).outcome = .error e →
      (send_beacon cfg t env retries count).packet_count = count) ∧
    count ≤ (send_beacon cfg t env retries count).packet_count ∧
    (∀ p, run_attempt cfg t (env 0) = .ok p →
      (send_beacon cfg t env retries count).outcome = .ok p ∧
      (send_beacon cfg t env retries count).packet_count = count + 1) := by
  have h := send_loop_count cfg t env retries 0 count
  refine ⟨?_, ?_, ?_, ?_⟩
  · intro p hp
    rcases h with ⟨h1, _⟩ | ⟨_, e, h2⟩
    · exact h1
    · rw [send_beacon] at hp
      rw [hp] at h2
      cases h2
  · intro e he
    rcases h with ⟨_, p, h2⟩ | ⟨h1, _⟩
    · rw [send_beacon] at he
      rw [he] at h2
      cases h2
    · exact h1
  · rcases h with ⟨h1, _⟩ | ⟨h1, _⟩
    · rw [send_beacon, h1]; omega
    · rw [send_beacon, h1]
  · intro p hp
    cases retries with
    | zero => rw [send_beacon, send_loop, hp]; exact ⟨rfl, rfl⟩
    | succ r => rw [send_beacon, send_loop, hp]; exact ⟨rfl, rfl⟩

/-! Round trip: parsing the encoded fields recovers the degree and
minutes values. -/

theorem parse_fields (w d n : Nat) (c : Char)
    (hd : (natStr d).length ≤ w) (hn : n ≤ 6000) :
    charsVal (((padLeftZeros w (natStr d)).data ++
        ((renderCenti n).data ++ [c])).take w) = d ∧
    charsVal ((((padLeftZeros w (natStr d)).data ++
        ((renderCenti n).data ++ [c])).drop w).take 2) = n / 100 ∧
    charsVal ((((padLeftZeros w (natStr d)).data ++
        ((renderCenti n).data ++ [c])).drop (w + 3)).take 2) = n % 100 ∧
    ((padLeftZeros w (natStr d)).data ++
        ((renderCenti n).data ++ [c])).getLast? = some c := by
  have h100 : (10 : Nat) ^ 2 = 100 := by norm_num
  have hPlen : (padLeftZeros w (natStr d)).data.length = w := by
    have he : (padLeftZeros w (natStr d)).data.length
        = (padLeftZeros w (natStr d)).length := rfl
    rw [he, padLeftZeros_length]
    omega
  have hWlen : (padLeftZeros 2 (natStr (n / 100))).data.length = 2 := by
    have he : (padLeftZeros 2 (natStr (n / 100))).data.length
        = (padLeftZeros 2 (natStr (n / 100))).length := rfl
    have hb := natStr_length_le (n / 100) 2 (by rw [h100]; omega) (by omega)
    rw [he, padLeftZeros_length]
    omega
  have hFlen : (padLeftZeros 2 (natStr (n % 100))).data.length = 2 := by
    have he : (padLeftZeros 2 (natStr (n % 100))).data.length
        = (padLeftZeros 2 (natStr (n % 100))).length := rfl
    have hb := natStr_length_le (n % 100) 2 (by rw [h100]; omega) (by omega)
    rw [he, padLeftZeros_length]
    omega
  have hR := renderCenti_data n hn
  have hdropw : ((padLeftZeros w (natStr d)).data ++
      ((renderCenti n).data ++ [c])).drop w = (renderCenti n).data ++ [c] :=
    List.drop_left' hPlen
  refine ⟨?_, ?_, ?_, ?_⟩
  · rw [List.take_left' hPlen, charsVal_padLeftZeros_natStr]
  · rw [hdropw, hR, List.append_assoc, List.cons_append,
      List.take_left' hWlen, charsVal_padLeftZeros_natStr]
  · rw [← List.drop_drop, hdropw, hR]
    have hsplit3 : ((padLeftZeros 2 (natStr (n / 100))).data ++
        '.' :: (padLeftZeros 2 (natStr (n % 100))).data) ++ [c]
        = ((padLeftZeros 2 (natStr (n / 100))).data ++ ['.']) ++
          ((padLeftZeros 2 (natStr (n % 100))).data ++ [c]) := by
      simp
    have hlen3 : ((padLeftZeros 2 (natStr (n / 100))).data ++ ['.']).length = 3 := by
      rw [List.length_append, hWlen]
      rfl
    rw [hsplit3, List.drop_left' hlen3, List.take_left' hFlen,
      charsVal_padLeftZeros_natStr]
  · have ha : (padLeftZeros w (natStr d)).data ++ ((renderCenti n).data ++ [c])
        = ((padLeftZeros w (natStr d)).data ++ (renderCenti n).data) ++ [c] :=
      (List.append_assoc _ _ _).symm
    rw [ha, List.getLast?_concat]

theorem decode_core (x : ℚ) {d n : Nat}
    (hnval : (n : ℚ) = (round ((x - (d : ℚ)) * 60 * 100) : ℚ)) :
    |((d : ℚ) + (((n / 100 : ℕ) : ℚ) + ((n % 100 : ℕ) : ℚ) / 100) / 60) - x|
      ≤ 1 / 60 := by
  have hmod : (100 : ℚ) * ((n / 100 : ℕ) : ℚ) + ((n % 100 : ℕ) : ℚ) = (n : ℚ) := by
    exact_mod_cast congrArg (fun m : ℕ => (m : ℚ)) (Nat.div_add_mod n 100)
  have hsplit : ((n / 100 : ℕ) : ℚ) + ((n % 100 : ℕ) : ℚ) / 100 = (n : ℚ) / 100 := by
    field_simp
    linarith
  rw [hsplit, hnval]
  have hround := abs_sub_round ((x - (d : ℚ)) * 60 * 100)
  rw [abs_le] at hround ⊢
  constructor
  · linarith [hround.1, hround.2]
  · linarith [hround.1, hround.2]

theorem abs_neg_sub_bound (a b : ℚ) (h : |a - -b| ≤ 1 / 60) : |-a - b| ≤ 1 / 60 := by
  have he : -a - b = -(a - -b) := by ring
  rw [he, abs_neg]
  exact h

theorem decode_lat_round (lat : ℚ) (h1 : -89.99 ≤ lat) (h2 : lat ≤ 89.99) :
    |decode_lat (decimal_to_aprs_lat lat) - lat| ≤ 1 / 60 := by
  have h100 : (10 : Nat) ^ 2 = 100 := by norm_num
  have hx0 : (0 : ℚ) ≤ |lat| := abs_nonneg lat
  have habs : |lat| ≤ 89.99 := abs_le.mpr ⟨h1, h2⟩
  have hdeg : ⌊|lat|⌋.toNat < 100 := by
    have hc : (⌊|lat|⌋ : ℚ) < 90 :=
      lt_of_le_of_lt (le_trans (Int.floor_le _) habs) (by norm_num)
    have hz : ⌊|lat|⌋ < 90 := by exact_mod_cast hc
    omega
  have hdlen : (natStr ⌊|lat|⌋.toNat).length ≤ 2 :=
    natStr_length_le _ 2 (by rw [h100]; exact hdeg) (by omega)
  have hn6000 := encoder_n_le |lat| hx0
  obtain ⟨p1, p2, p3, p4⟩ := parse_fields 2 ⌊|lat|⌋.toNat
    ((round ((|lat| - (⌊|lat|⌋.toNat : ℚ)) * 60 * 100)).toNat)
    (if lat ≥ 0 then 'N' else 'S') hdlen hn6000
  norm_num only at p3
  simp only [decode_lat, decimal_to_aprs_lat_data, p1, p2, p3, p4]
  have hcore := decode_core |lat| (encoder_n_cast |lat| hx0)
  by_cases hpos : lat ≥ 0
  · rw [if_pos hpos]
    rw [if_neg (by decide : ¬ (some 'N' = some 'S'))]
    rw [abs_of_nonneg hpos] at hcore ⊢
    exact hcore
  · rw [if_neg hpos]
    rw [if_pos rfl]
    have hle : lat ≤ 0 := le_of_not_le hpos
    rw [abs_of_nonpos hle] at hcore ⊢
    exact abs_neg_sub_bound _ _ hcore

theorem decode_lon_round (lon : ℚ) (h1 : -179.99 ≤ lon) (h2 : lon ≤ 179.99) :
    |decode_lon (decimal_to_aprs_lon lon) - lon| ≤ 1 / 60 := by
  have h1000 : (10 : Nat) ^ 3 = 1000 := by norm_num
  have hx0 : (0 : ℚ) ≤ |lon| := abs_nonneg lon
  have habs : |lon| ≤ 179.99 := abs_le.mpr ⟨h1, h2⟩
  have hdeg : ⌊|lon|⌋.toNat < 1000 := by
    have hc : (⌊|lon|⌋ : ℚ) < 180 :=
      lt_of_le_of_lt (le_trans (Int.floor_le _) habs) (by norm_num)
    have hz : ⌊|lon|⌋ < 180 := by exact_mod_cast hc
    omega
  have hdlen : (natStr ⌊|lon|⌋.toNat).length ≤ 3 :=
    natStr_length_le _ 3 (by rw [h1000]; exact hdeg) (by omega)
  have hn6000 := encoder_n_le |lon| hx0
  obtain ⟨p1, p2, p3, p4⟩ := parse_fields 3 ⌊|lon|⌋.toNat
    ((round ((|lon| - (⌊|lon|⌋.toNat : ℚ)) * 60 * 100)).toNat)
    (if lon ≥ 0 then 'E' else 'W') hdlen hn6000
  norm_num only at p3
  simp only [decode_lon, decimal_to_aprs_lon_data, p1, p2, p3, p4]
  have hcore := decode_core |lon| (encoder_n_cast |lon| hx0)
  by_cases hpos : lon ≥ 0
  · rw [if_pos hpos]
    rw [if_neg (by decide : ¬ (some 'E' = some 'W'))]
    rw [abs_of_nonneg hpos] at hcore ⊢
    exact hcore
  · rw [if_neg hpos]
    rw [if_pos rfl]
    have hle : lon ≤ 0 := le_of_not_le hpos
    rw [abs_of_nonpos hle] at hcore ⊢
    exact abs_neg_sub_bound _ _ hcore

/-- C5: for every latitude in [-89.99, 89.99] and longitude in
[-179.99, 179.99], parsing the encoder output (degrees, decimal minutes,
hemisphere) back to signed decimal degrees recovers the input to within
one arc-minute (1/60 degree). -/
theorem encode_decode_within_arcminute :
    ∀ x y : ℚ, -89.99 ≤ x → x ≤ 89.99 → -179.99 ≤ y → y ≤ 179.99 →
      |decode_lat (decimal_to_aprs_lat x) - x| ≤ 1 / 60 ∧
      |decode_lon (decimal_to_aprs_lon y) - y| ≤ 1 / 60 :=
  fun x y h1 h2 h3 h4 => ⟨decode_lat_round x h1 h2, decode_lon_round y h3 h4⟩

/-- C5 (witness): the round trip at latitude 45.5 and longitude -73.25. -/
theorem encode_decode_witness :
    |decode_lat (decimal_to_aprs_lat (45.5 : ℚ)) - 45.5| ≤ 1 / 60 ∧
    |decode_lon (decimal_to_aprs_lon (-73.25 : ℚ)) - (-73.25)| ≤ 1 / 60 :=
  encode_decode_within_arcminute 45.5 (-73.25) (by norm_num) (by norm_num)
    (by norm_num) (by norm_num)

/-- C2 (witness): with a server that acknowledges the login on the first
attempt and all writes succeeding, `send_beacon` succeeds and raises the
counter from 5 to 6. -/
theorem send_beacon_counter_witness :
    (send_beacon
      ⟨"rotate.aprs2.net", 14580, 10, "Home", "test", 45.5, -73.25,
        "N0CALL", "9", "12345", false⟩ ⟨12, 0, 0⟩
      (fun _ => ⟨true, true, ["# logresp verified"], true⟩) 2 5).outcome =
      .ok (build_packet
        ⟨"rotate.aprs2.net", 14580, 10, "Home", "test", 45.5, -73.25,
          "N0CALL", "9", "12345", false⟩ ⟨12, 0, 0⟩) ∧
    (send_beacon
      ⟨"rotate.aprs2.net", 14580, 10, "Home", "test", 45.5, -73.25,
        "N0CALL", "9", "12345", false⟩ ⟨12, 0, 0⟩
      (fun _ => ⟨true, true, ["# logresp verified"], true⟩) 2 5).packet_count
        = 5 + 1 :=
  (send_beacon_counter _ _ _ 2 5).2.2.2 _ rfl

/-- C6 (witness): the shape at a concrete configuration, once with the
empty ssid (no dash) and once with ssid 9. -/
theorem build_packet_shape_witness :
    build_packet
        ⟨"rotate.aprs2.net", 14580, 10, "Home", "test", 45.5, -73.25,
          "N0CALL", "", "12345", false⟩ ⟨12, 0, 0⟩ =
      "N0CALL" ++ ">APU25N,TCPIP*:@" ++ fmtHMSz ⟨12, 0, 0⟩ ++
        decimal_to_aprs_lat 45.5 ++ "/" ++ decimal_to_aprs_lon (-73.25) ++
        symbol_get "Home" ++ "test" ∧
    build_packet
        ⟨"rotate.aprs2.net", 14580, 10, "Home", "test", 45.5, -73.25,
          "N0CALL", "9", "12345", false⟩ ⟨12, 0, 0⟩ =
      "N0CALL" ++ "-" ++ "9" ++ ">APU25N,TCPIP*:@" ++ fmtHMSz ⟨12, 0, 0⟩ ++
        decimal_to_aprs_lat 45.5 ++ "/" ++ decimal_to_aprs_lon (-73.25) ++
        symbol_get "Home" ++ "test" :=
  ⟨(build_packet_shape _ _).1 rfl, (build_packet_shape _ _).2.1 (by decide)⟩

/-- C7 (witness): a label outside the enumerated set maps to the dash. -/
theorem symbol_lookup_total_witness : symbol_get "Foo" = "-" :=
  symbol_lookup_total.2.2 "Foo" (by decide)
